import Mathlib

/- Verification of the thin wrapper code of the naima repository:
   gammafit/sherpamod.py (a sherpa model adapter) and
   examples/CrabNebula_IC_We.py (an MCMC model function).

   Real-number values are modelled by rationals; the external scientific
   library operations (radiative-transfer flux evaluation, transcendental
   exponentiation, astropy unit conversion) are modelled as abstract
   operations, since their code lives outside the files under verification.
   Fallible external calls are modelled in the `Except String` monad. -/

namespace Naima

/-- A physical quantity: a numeric value paired with a unit label, modelling
an astropy scalar Quantity. -/
structure Quantity where
  val : ℚ
  unit : String
deriving Repr, DecidableEq

/-- The ten parameters of the sherpa `InverseCompton` model, in the order in
which they are unpacked from the flat parameter vector `p` at
sherpamod.py line 62:
`index,ref,ampl,cutoff,beta,TFIR,uFIR,TNIR,uNIR,verbose = p`. -/
structure ICParams where
  index : ℚ
  ref : ℚ
  ampl : ℚ
  cutoff : ℚ
  beta : ℚ
  TFIR : ℚ
  uFIR : ℚ
  TNIR : ℚ
  uNIR : ℚ
  verbose : ℚ
deriving Repr, DecidableEq

/-- The particle distribution constructed at sherpamod.py lines 70-74: either
`models.PowerLaw(ampl/eV, ref TeV, index)` or
`models.ExponentialCutoffPowerLaw(ampl/eV, ref TeV, index, cutoff TeV, beta)`.
The constructor arguments are recorded; the distributions themselves live in
the external models module. -/
inductive PDist where
  | powerLaw (ampl ref index : ℚ)
  | ecpl (ampl ref index cutoff beta : ℚ)
deriving Repr, DecidableEq

/-- One entry of the `seedspec` list built at sherpamod.py lines 76-81: the
bare string entry for the CMB, or a `[name, T (K), u (eV/cm3)]` triple for the
FIR and NIR blackbody fields.  The FIR and NIR constructors record the
entries lines 79/81 intend to append; as written those lines never complete
(see `buildSeedSpec`). -/
inductive SeedField where
  | CMB
  | FIR (T u : ℚ)
  | NIR (T u : ℚ)
deriving Repr, DecidableEq

/-- sherpamod.py lines 70-74: dispatch on `cutoff == 0.0` between a pure
power law and an exponential-cutoff power law. -/
def buildPDist (p : ICParams) : PDist :=
  if p.cutoff = 0 then PDist.powerLaw p.ampl p.ref p.index
  else PDist.ecpl p.ampl p.ref p.index p.cutoff p.beta

/-- The error raised by sherpamod.py lines 79 and 81: both build the
quantity `u * u.ev/u.cm**3`, and astropy.units has no attribute `ev` — the
electron-volt unit is `eV`, and module attribute lookup is case-sensitive
with no fallback. -/
def attributeErrorEv : String :=
  "AttributeError: module astropy.units has no attribute ev"

/-- sherpamod.py lines 76-81: `seedspec=['CMB',]`, then an FIR entry is to be
appended when `uFIR>0.0` and an NIR entry when `uNIR>0.0`.  As written the
appends never complete: evaluating `uFIR * u.ev/u.cm**3` (line 79) or
`uNIR * u.ev/u.cm**3` (line 81) raises AttributeError on `u.ev`, so the
first gate taken aborts the construction; only when neither gate is taken
does the list `['CMB']` survive. -/
def buildSeedSpec (p : ICParams) : Except String (List SeedField) :=
  if p.uFIR > 0 then Except.error attributeErrorEv
  else if p.uNIR > 0 then Except.error attributeErrorEv
  else Except.ok [SeedField.CMB]

/-- sherpamod.py lines 16-32, `_mergex(xlo, xhi, midpoints=False)`:
`x = np.zeros(N+1)` with `N = xlo.size`, `x[:N] = xlo.copy()`,
`x[-1] = xhi[-1]`, and when `midpoints` is set the elementwise midpoints
`(xlo+xhi)/2` are concatenated and the array is sorted ascending in place.
`xhi[-1]` on an empty `xhi` raises IndexError, modelled by `none`; the
elementwise `xlo+xhi` requires matching sizes, also modelled by `none`
(numpy broadcasting against a size-1 operand is not modelled; every use in
this development has equal sizes). -/
def mergex (xlo xhi : List ℚ) (midpoints : Bool) : Option (List ℚ) :=
  match xhi.getLast? with
  | none => none
  | some xhiLast =>
    let x := xlo ++ [xhiLast]
    if midpoints then
      if xlo.length = xhi.length then
        some (List.insertionSort (· ≤ ·)
          (x ++ List.zipWith (fun a b => (a + b) / 2) xlo xhi))
      else none
    else some x

/-- sherpamod.py lines 95-96, the per-bin integration applied to the merged
boundary array and the flux evaluated on it:
`(outspec[1:]-outspec[:-1]) * ((model[1:]+model[:-1])/2.)`.
As written this code is unreachable, because line 68 raises NameError first
(see `icCalc`). -/
def binphotons (outspec model : List ℚ) : List ℚ :=
  List.zipWith (· * ·)
    (List.zipWith (· - ·) outspec.tail outspec.dropLast)
    ((List.zipWith (· + ·) model.tail model.dropLast).map (· / 2))

/-- The error raised by sherpamod.py line 68: the method signature
(line 60) names its third argument `x`, but the merge call is
`_mergex(xlo,xhi)`, and no `xlo` is defined in any enclosing scope. -/
def nameErrorXlo : String := "NameError: name xlo is not defined"

/-- Embedding of `InverseCompton.calc` (sherpamod.py lines 59-101).

`flux` abstracts the external call chain of lines 83-86:
`models.InverseCompton(pdist, seed_photon_fields=seedspec, ...)` followed by
`.flux(outspec).to(1/(s cm2 keV))`, as a fallible vectorized evaluation
determined by the particle distribution and the seed field list.

When `xhi` is `None`, `outspec = x * u.keV`, the pdist dispatch of lines
70-74 runs, then the seedspec construction of lines 76-81 (which raises
AttributeError whenever one of its gates is taken, see `buildSeedSpec`), and
the result is `(outspec * model).to(1/(s cm2)).value`, an elementwise
product (the unit conversion keV * 1/(s cm2 keV) -> 1/(s cm2) has scale
one).  When `xhi` is given, line 68 evaluates `_mergex(xlo,xhi)` and raises
NameError, since the parameter is named `x`; nothing after line 68 runs.
The `verbose` branch of lines 98-99 only prints and is not modelled. -/
def icCalc (flux : PDist → List SeedField → List ℚ → Except String (List ℚ))
    (p : ICParams) (x : List ℚ) (xhi : Option (List ℚ)) :
    Except String (List ℚ) :=
  match xhi with
  | some _ => Except.error nameErrorXlo
  | none =>
    match buildSeedSpec p with
    | Except.error e => Except.error e
    | Except.ok seedspec =>
      match flux (buildPDist p) seedspec x with
      | Except.error e => Except.error e
      | Except.ok model => Except.ok (List.zipWith (· * ·) x model)

/-- The particle distribution object built at CrabNebula_IC_We.py line 24:
`ExponentialCutoffPowerLaw(1/u.eV, 10.*u.TeV, alpha, e_cutoff)`.  The four
constructor arguments are recorded (the `beta` argument is left at the
library default). -/
structure ECPL where
  amplitude : Quantity
  e_0 : Quantity
  alpha : ℚ
  e_cutoff : Quantity
deriving Repr, DecidableEq

/-- Modelled from the spec: `naima.models.InverseCompton` and its `set_We`
method live outside the files under verification; per the spec the model
"normalizes the distribution by total energy content".  The record keeps the
constructor arguments (particle distribution and seed photon field names) and
the `set_We(We, Eemin)` normalization setting installed at
CrabNebula_IC_We.py lines 25-26. -/
structure ICModel where
  pdist : ECPL
  seed_photon_fields : List String
  weSetting : Option (Quantity × Quantity)
deriving Repr, DecidableEq

/-- Modelled from the spec: the observed data table read from an ASCII file
with "columns for energy and flux".  Only the energy column values and the
unit of the flux column are consumed by the model function. -/
structure DataTable where
  energy : List Quantity
  fluxUnit : String
deriving Repr, DecidableEq

/-- Modelled from the spec: the external naima/numpy/astropy operations used
by `ElectronIC`, which are not part of the files under verification —
`pow10` is real exponentiation `10**x`; `icFlux` is
`IC.flux(data, distance)`, the flux "evaluated at the observation energies"
at the given distance; `toUnit` is astropy Quantity-array unit conversion
`.to(unit)`; `ecplEvalArr` is the evaluation of the particle distribution at
an array of energies, `ECPL(elec_energy)`.  Each fallible call is modelled
in `Except String`. -/
structure NaimaLib where
  pow10 : ℚ → ℚ
  icFlux : ICModel → Quantity → List Quantity → Except String (List Quantity)
  toUnit : List Quantity → String → Except String (List Quantity)
  ecplEvalArr : ECPL → List Quantity → Except String (List ℚ)

/-- `np.linspace(a, b, n)`: `n` evenly spaced points from `a` to `b`
inclusive, step `(b-a)/(n-1)`. -/
def linspace (a b : ℚ) (n : ℕ) : List ℚ :=
  (List.range n).map (fun k : ℕ => a + (b - a) * (k : ℚ) / ((n : ℚ) - 1))

/-- `np.logspace(a, b, n)`: `10**x` over `np.linspace(a, b, n)`, with the
exponentiation kept abstract. -/
def logspace (pow10 : ℚ → ℚ) (a b : ℚ) (n : ℕ) : List ℚ :=
  (linspace a b n).map pow10

/-- CrabNebula_IC_We.py lines 19-26: `We = 10**pars[0] * u.erg`,
`alpha = pars[1]`, `e_cutoff = (10**pars[2])*u.TeV`, then
`ECPL = ExponentialCutoffPowerLaw(1/u.eV, 10.*u.TeV, alpha, e_cutoff)`,
`IC = InverseCompton(ECPL, seed_photon_fields=['CMB'])` and
`IC.set_We(We, Eemin=1*u.TeV)`. -/
def buildICModel (pow10 : ℚ → ℚ) (pars : List ℚ) : ICModel :=
  let We : Quantity := ⟨pow10 (pars.getD 0 0), "erg"⟩
  let alpha : ℚ := pars.getD 1 0
  let e_cutoff : Quantity := ⟨pow10 (pars.getD 2 0), "TeV"⟩
  let ecplObj : ECPL := ⟨⟨1, "1/eV"⟩, ⟨10, "TeV"⟩, alpha, e_cutoff⟩
  { pdist := ecplObj, seed_photon_fields := ["CMB"], weSetting := some (We, ⟨1, "TeV"⟩) }

/-- Embedding of `ElectronIC` (CrabNebula_IC_We.py lines 15-39): build the
normalized IC model, evaluate
`model = IC.flux(data, distance=2.0*u.kpc).to(data['flux'].unit)`, sample the
particle distribution at `elec_energy = np.logspace(11,15,100) * u.eV` as
`nelec = ECPL(elec_energy)`, and return `model, (elec_energy, nelec)`. -/
def ElectronIC (lib : NaimaLib) (pars : List ℚ) (data : DataTable) :
    Except String (List Quantity × (List Quantity × List ℚ)) :=
  match lib.icFlux (buildICModel lib.pow10 pars) ⟨2, "kpc"⟩ data.energy with
  | Except.error e => Except.error e
  | Except.ok fluxRaw =>
    match lib.toUnit fluxRaw data.fluxUnit with
    | Except.error e => Except.error e
    | Except.ok model =>
      match lib.ecplEvalArr (buildICModel lib.pow10 pars).pdist
          ((logspace lib.pow10 11 15 100).map (fun v => (⟨v, "eV"⟩ : Quantity))) with
      | Except.error e => Except.error e
      | Except.ok nelec =>
        Except.ok (model,
          ((logspace lib.pow10 11 15 100).map (fun v => (⟨v, "eV"⟩ : Quantity)), nelec))

/-- A concrete always-succeeding stand-in for the external flux evaluation,
used to exercise `icCalc` at concrete inputs. -/
def demoFlux : PDist → List SeedField → List ℚ → Except String (List ℚ) :=
  fun _ _ es => Except.ok (es.map (fun _ => 1))

/-- A concrete parameter record: the sherpa model defaults of
sherpamod.py lines 36-45. -/
def demoParams : ICParams := ⟨2, 20, 1, 0, 1, 70, 0, 3800, 0, 0⟩

/-- The default parameters with a nonzero cutoff (5 TeV). -/
def demoParamsCut : ICParams := ⟨2, 20, 1, 5, 1, 70, 0, 3800, 0, 0⟩

/-- The default parameters with a positive FIR energy density (1 eV/cm3). -/
def demoParamsFIR : ICParams := ⟨2, 20, 1, 0, 1, 70, 1, 3800, 0, 0⟩

/-- A concrete external-library record whose calls all succeed. -/
def demoLib : NaimaLib where
  pow10 := id
  icFlux := fun _ _ es => Except.ok es
  toUnit := fun q _ => Except.ok q
  ecplEvalArr := fun _ es => Except.ok (es.map Quantity.val)

/-- A concrete external-library record whose flux evaluation fails. -/
def demoFailLib : NaimaLib where
  pow10 := id
  icFlux := fun _ _ _ => Except.error "boom"
  toUnit := fun q _ => Except.ok q
  ecplEvalArr := fun _ es => Except.ok (es.map Quantity.val)

/-- A concrete one-point observed data table. -/
def demoData : DataTable := ⟨[⟨1, "TeV"⟩], "1/(cm2 s TeV)"⟩

/-- The concrete electron-energy sample produced with the identity standing
in for `10**x`. -/
def demoEE : List Quantity :=
  (logspace id 11 15 100).map (fun v => (⟨v, "eV"⟩ : Quantity))

/- Helper lemmas about list indexing with a default value. -/

theorem getD_tail (l : List ℚ) (i : ℕ) : l.tail.getD i 0 = l.getD (i + 1) 0 := by
  cases l with
  | nil => rfl
  | cons x xs => rfl

theorem getD_dropLast (l : List ℚ) (i : ℕ) (h : i + 1 < l.length) :
    l.dropLast.getD i 0 = l.getD i 0 := by
  have h1 : i < l.dropLast.length := by simp only [List.length_dropLast]; omega
  have h2 : i < l.length := by omega
  rw [List.getD_eq_getElem _ _ h1, List.getD_eq_getElem _ _ h2, List.getElem_dropLast]

theorem getD_map_half (l : List ℚ) (i : ℕ) (h : i < l.length) :
    (l.map (· / 2)).getD i 0 = l.getD i 0 / 2 := by
  have h1 : i < (l.map (· / 2)).length := by simpa using h
  rw [List.getD_eq_getElem _ _ h1, List.getD_eq_getElem _ _ h, List.getElem_map]

theorem getD_zipWith (f : ℚ → ℚ → ℚ) (l₁ l₂ : List ℚ) (i : ℕ)
    (h1 : i < l₁.length) (h2 : i < l₂.length) :
    (List.zipWith f l₁ l₂).getD i 0 = f (l₁.getD i 0) (l₂.getD i 0) := by
  have h3 : i < (List.zipWith f l₁ l₂).length := by
    simp only [List.length_zipWith]; omega
  rw [List.getD_eq_getElem _ _ h3, List.getD_eq_getElem _ _ h1,
    List.getD_eq_getElem _ _ h2, List.getElem_zipWith]

theorem getD_mem (l : List ℚ) (i : ℕ) (h : i < l.length) : l.getD i 0 ∈ l := by
  rw [List.getD_eq_getElem _ _ h]
  exact List.getElem_mem h

theorem getLast?_eq_getD (l : List ℚ) (h : l ≠ []) :
    l.getLast? = some (l.getD (l.length - 1) 0) := by
  have hl : 0 < l.length := List.length_pos.mpr h
  have h1 : l.length - 1 < l.length := by omega
  rw [List.getLast?_eq_getElem?, List.getElem?_eq_getElem h1,
    List.getD_eq_getElem _ _ h1]

theorem getD_logspace_map (pow10 : ℚ → ℚ) (k : ℕ) (hk : k < 100) :
    ((logspace pow10 11 15 100).map (fun v => (⟨v, "eV"⟩ : Quantity))).getD k ⟨0, ""⟩ =
      ⟨pow10 (11 + (15 - 11) * k / 99), "eV"⟩ := by
  have h1 : k < ((logspace pow10 11 15 100).map
      (fun v => (⟨v, "eV"⟩ : Quantity))).length := by
    simp only [logspace, linspace, List.length_map, List.length_range]
    omega
  rw [List.getD_eq_getElem _ _ h1]
  simp only [logspace, linspace, List.getElem_map, List.getElem_range]
  norm_num

theorem logspace_map_length (pow10 : ℚ → ℚ) :
    ((logspace pow10 11 15 100).map (fun v => (⟨v, "eV"⟩ : Quantity))).length = 100 := by
  simp only [logspace, linspace, List.length_map, List.length_range]

/-- C2: the claim says `InverseCompton.calc` with both bin-edge arrays merges
them into one boundary array and returns one photon count per bin.  The code
cannot: its third parameter is named `x` (line 60) while line 68 calls
`_mergex(xlo,xhi)`, so every call with `xhi` not None raises
`NameError: name xlo is not defined` before anything else runs. -/
theorem icCalc_binned_raises
    (flux : PDist → List SeedField → List ℚ → Except String (List ℚ))
    (p : ICParams) (x xs : List ℚ) :
    icCalc flux p x (some xs) = Except.error nameErrorXlo := rfl

/-- C1 counterexample: at the concrete call with lower edges [1,2,4] keV and
upper edges [2,4,8] keV, `calc` does not return log-log trapezoids of the
flux over the bins — it returns no photon counts at all, raising NameError,
so the claim as stated is false at this input. -/
theorem icCalc_loglog_cex :
    icCalc demoFlux demoParams [1, 2, 4] (some [2, 4, 8]) =
      Except.error nameErrorXlo := rfl

/-- C1 (amended): every call of `calc` with `xhi` given raises NameError at
line 68 (undefined name `xlo`) and returns no photon counts; and the per-bin
integration the code contains for that branch (lines 95-96, `binphotons`) is
the plain trapezoid in linear space — the i-th bin value is
`(e_(i+1) - e_i) * (f_i + f_(i+1)) / 2` — not a trapezoid in log-log space
(log-log integration is explicitly left as a TODO at line 91). -/
theorem icCalc_bin_integration :
    (∀ flux p x xhi, icCalc flux p x (some xhi) = Except.error nameErrorXlo) ∧
    (∀ es fs : List ℚ, ∀ i : ℕ, i + 1 < es.length → i + 1 < fs.length →
      (binphotons es fs).getD i 0 =
        (es.getD (i + 1) 0 - es.getD i 0) *
          ((fs.getD i 0 + fs.getD (i + 1) 0) / 2)) := by
  constructor
  · intro flux p x xhi; rfl
  · intro es fs i h1 h2
    unfold binphotons
    have hts : i < es.tail.length := by simp only [List.length_tail]; omega
    have hds : i < es.dropLast.length := by simp only [List.length_dropLast]; omega
    have htf : i < fs.tail.length := by simp only [List.length_tail]; omega
    have hdf : i < fs.dropLast.length := by simp only [List.length_dropLast]; omega
    have hz1 : i < (List.zipWith (· - ·) es.tail es.dropLast).length := by
      simp only [List.length_zipWith]; omega
    have hz2 : i < (List.zipWith (· + ·) fs.tail fs.dropLast).length := by
      simp only [List.length_zipWith]; omega
    rw [getD_zipWith (· * ·) _ _ i hz1 (by simpa using hz2),
      getD_zipWith (· - ·) _ _ i hts hds,
      getD_map_half _ i hz2,
      getD_zipWith (· + ·) _ _ i htf hdf,
      getD_tail, getD_tail, getD_dropLast _ _ h1, getD_dropLast _ _ h2]
    ring

/-- C1 witness: the amended claim applied at concrete inputs — a binned call
raising NameError, and the linear-trapezoid form of bin 0 for boundaries
[1,2,4] with flux values [10,20,40]. -/
theorem icCalc_bin_integration_witness :
    icCalc demoFlux demoParams [5, 6] (some [6, 7]) = Except.error nameErrorXlo ∧
    (binphotons [1, 2, 4] [10, 20, 40]).getD 0 0 =
      (([1, 2, 4] : List ℚ).getD 1 0 - ([1, 2, 4] : List ℚ).getD 0 0) *
        ((([10, 20, 40] : List ℚ).getD 0 0 + ([10, 20, 40] : List ℚ).getD 1 0) / 2) :=
  ⟨icCalc_bin_integration.1 demoFlux demoParams [5, 6] [6, 7],
   icCalc_bin_integration.2 [1, 2, 4] [10, 20, 40] 0 (by decide) (by decide)⟩

/-- C9: when `xhi` is None the returned photons array has the length of `x`
and its i-th entry is `x[i]` times the flux at `x[i]` — this part holds;
but when bin edges are given the code raises NameError (undefined `xlo`)
instead of returning an array of length N, shown here at the concrete
failing input `x=[1,2]`, `xhi=[2,3]`. -/
theorem icCalc_output_shape :
    icCalc demoFlux demoParams [1, 2] (some [2, 3]) = Except.error nameErrorXlo ∧
    (∀ flux p (x m : List ℚ) seedspec,
      buildSeedSpec p = Except.ok seedspec →
      flux (buildPDist p) seedspec x = Except.ok m → m.length = x.length →
      ∃ l, icCalc flux p x none = Except.ok l ∧ l.length = x.length ∧
        ∀ i : ℕ, i < x.length → l.getD i 0 = x.getD i 0 * m.getD i 0) := by
  refine ⟨rfl, ?_⟩
  intro flux p x m seedspec hs hm hlen
  refine ⟨List.zipWith (· * ·) x m, ?_, ?_, ?_⟩
  · simp only [icCalc, hs, hm]
  · simp [List.length_zipWith, hlen]
  · intro i hi
    exact getD_zipWith (· * ·) x m i hi (by omega)

/-- C9 witness: the unbinned branch at `x = [3,4]` with a flux stand-in
returning 1 at every energy. -/
theorem icCalc_output_shape_witness :
    ∃ l, icCalc demoFlux demoParams [3, 4] none = Except.ok l ∧
      l.length = ([3, 4] : List ℚ).length ∧
      ∀ i : ℕ, i < ([3, 4] : List ℚ).length →
        l.getD i 0 = ([3, 4] : List ℚ).getD i 0 * ([1, 1] : List ℚ).getD i 0 :=
  icCalc_output_shape.2 demoFlux demoParams [3, 4] [1, 1] [SeedField.CMB]
    rfl rfl rfl

/-- C3: `calc` builds a pure power law exactly when the cutoff parameter is
0.0, and an exponential-cutoff power law from the cutoff (TeV) and beta
parameters for every nonzero cutoff (sherpamod.py lines 70-74). -/
theorem buildPDist_cutoff_dispatch (p : ICParams) :
    (buildPDist p = PDist.powerLaw p.ampl p.ref p.index ↔ p.cutoff = 0) ∧
    (p.cutoff ≠ 0 →
      buildPDist p = PDist.ecpl p.ampl p.ref p.index p.cutoff p.beta) := by
  unfold buildPDist
  by_cases h : p.cutoff = 0
  · simp [h]
  · simp [h]

/-- C3 witness: with the cutoff at 5 TeV the exponential-cutoff branch is
taken. -/
theorem buildPDist_cutoff_dispatch_witness :
    buildPDist demoParamsCut = PDist.ecpl demoParamsCut.ampl demoParamsCut.ref
      demoParamsCut.index demoParamsCut.cutoff demoParamsCut.beta :=
  (buildPDist_cutoff_dispatch demoParamsCut).2 (by decide)

/-- C4: the claim says the seed photon field list given to the scattering
model contains the FIR blackbody entry iff uFIR > 0 and the NIR entry iff
uNIR > 0, besides the always-present CMB.  The code cannot deliver the
positive direction: lines 79 and 81 reference `u.ev`, which does not exist
in astropy.units (the electron-volt is `u.eV`), so whenever either gate is
taken the append raises AttributeError and no seed list ever reaches the
scattering model — `calc` fails instead of producing a flux; only the
uFIR <= 0 and uNIR <= 0 path succeeds, with the CMB entry alone. -/
theorem buildSeedSpec_gating :
    (∀ p : ICParams, 0 < p.uFIR →
      buildSeedSpec p = Except.error attributeErrorEv) ∧
    (∀ p : ICParams, 0 < p.uNIR →
      buildSeedSpec p = Except.error attributeErrorEv) ∧
    (∀ p : ICParams, ¬ 0 < p.uFIR → ¬ 0 < p.uNIR →
      buildSeedSpec p = Except.ok [SeedField.CMB]) ∧
    (∀ flux p x, 0 < p.uFIR →
      icCalc flux p x none = Except.error attributeErrorEv) := by
  refine ⟨?_, ?_, ?_, ?_⟩
  · intro p h
    simp [buildSeedSpec, h]
  · intro p h
    by_cases h1 : p.uFIR > 0 <;> simp [buildSeedSpec, h, h1]
  · intro p h1 h2
    simp [buildSeedSpec, h1, h2]
  · intro flux p x h
    have hb : buildSeedSpec p = Except.error attributeErrorEv := by
      simp [buildSeedSpec, h]
    simp only [icCalc, hb]

/-- C4 witness: with uFIR = 1 eV/cm3 (the 0.2 eV/cm3 of the line-42 comment
behaves the same) the seed-list construction fails with the AttributeError,
and so does the whole unbinned `calc` call. -/
theorem buildSeedSpec_gating_witness :
    buildSeedSpec demoParamsFIR = Except.error attributeErrorEv ∧
    icCalc demoFlux demoParamsFIR [1, 2] none = Except.error attributeErrorEv :=
  ⟨buildSeedSpec_gating.1 demoParamsFIR (by decide),
   buildSeedSpec_gating.2.2.2 demoFlux demoParamsFIR [1, 2] (by decide)⟩

/-- C5: for every pair of equal-size arrays (N at least 1),
`_mergex(xlo, xhi)` without midpoints returns an array of N+1 entries whose
first N entries are `xlo` and whose last entry is `xhi[N-1]` — this holds
unconditionally, also for non-contiguous inputs; under the additional
contiguity assumption `xlo[n] = xhi[n-1]` its entries are exactly the bin
boundaries (an element is in the result exactly when it is in `xlo` or in
`xhi`).  The inputs are left unchanged: the embedding is pure, as is the
source, which writes only into the freshly allocated `x`. -/
theorem mergex_no_midpoints (xlo xhi : List ℚ)
    (hlen : xlo.length = xhi.length) (hne : xhi ≠ []) :
    ∃ l, mergex xlo xhi false = some l ∧ l.length = xlo.length + 1 ∧
      l.take xlo.length = xlo ∧ l.getLast? = xhi.getLast? ∧
      ((∀ n : ℕ, n + 1 < xlo.length → xlo.getD (n + 1) 0 = xhi.getD n 0) →
        ∀ a, a ∈ l ↔ (a ∈ xlo ∨ a ∈ xhi)) := by
  have hpos : 0 < xhi.length := List.length_pos.mpr hne
  have hv := getLast?_eq_getD xhi hne
  refine ⟨xlo ++ [xhi.getD (xhi.length - 1) 0], ?_, ?_, ?_, ?_, ?_⟩
  · simp [mergex, hv]
  · simp
  · exact List.take_left xlo _
  · rw [List.getLast?_concat, hv]
  · intro hcont a
    constructor
    · intro ha
      rcases List.mem_append.mp ha with hmem | hmem
      · exact Or.inl hmem
      · have ha2 : a = xhi.getD (xhi.length - 1) 0 := by simpa using hmem
        rw [ha2]
        exact Or.inr (getD_mem xhi _ (by omega))
    · rintro (hmem | hmem)
      · exact List.mem_append.mpr (Or.inl hmem)
      · obtain ⟨i, hi, hga⟩ := List.mem_iff_getElem.mp hmem
        by_cases hlt : i + 1 < xhi.length
        · refine List.mem_append.mpr (Or.inl ?_)
          have hlt2 : i + 1 < xlo.length := by omega
          have hgd : xhi.getD i 0 = a := by
            rw [List.getD_eq_getElem _ _ (by omega : i < xhi.length)]
            exact hga
          rw [← hgd, ← hcont i hlt2]
          exact getD_mem xlo _ hlt2
        · refine List.mem_append.mpr (Or.inr ?_)
          have hieq : i = xhi.length - 1 := by omega
          subst hieq
          have hgd : xhi.getD (xhi.length - 1) 0 = a := by
            rw [List.getD_eq_getElem _ _ (by omega : xhi.length - 1 < xhi.length)]
            exact hga
          exact List.mem_singleton.mpr hgd.symm

/-- C5 witness: the pair xlo = [1,2], xhi = [2,3] (which happens to be
contiguous, so the membership clause is available too). -/
theorem mergex_no_midpoints_witness :
    ∃ l, mergex [1, 2] [2, 3] false = some l ∧
      l.length = ([1, 2] : List ℚ).length + 1 ∧
      l.take ([1, 2] : List ℚ).length = [1, 2] ∧
      l.getLast? = ([2, 3] : List ℚ).getLast? ∧
      ((∀ n : ℕ, n + 1 < ([1, 2] : List ℚ).length →
          ([1, 2] : List ℚ).getD (n + 1) 0 = ([2, 3] : List ℚ).getD n 0) →
        ∀ a, a ∈ l ↔ (a ∈ ([1, 2] : List ℚ) ∨ a ∈ ([2, 3] : List ℚ))) :=
  mergex_no_midpoints [1, 2] [2, 3] rfl (by decide)

/-- C10: for equal-size contiguous ordered arrays, `_mergex` with
`midpoints=True` returns a nondecreasing array of length 2N+1 whose entries
are exactly (as a multiset, via a permutation) the N+1 bin boundaries
together with the N midpoints `(xlo[n]+xhi[n])/2`. -/
theorem mergex_midpoints_spec (xlo xhi : List ℚ)
    (hlen : xlo.length = xhi.length) (hne : xlo ≠ [])
    (hcont : ∀ n : ℕ, n + 1 < xlo.length → xlo.getD (n + 1) 0 = xhi.getD n 0)
    (hord : ∀ n : ℕ, n < xlo.length → xlo.getD n 0 ≤ xhi.getD n 0) :
    ∃ l v, mergex xlo xhi true = some l ∧ xhi.getLast? = some v ∧
      l.length = 2 * xlo.length + 1 ∧ l.Sorted (· ≤ ·) ∧
      l.Perm ((xlo ++ [v]) ++ List.zipWith (fun a b => (a + b) / 2) xlo xhi) := by
  have hxne : xhi ≠ [] := by
    intro hx
    rw [hx] at hlen
    simp at hlen
    exact hne hlen
  have hv := getLast?_eq_getD xhi hxne
  refine ⟨List.insertionSort (· ≤ ·)
      ((xlo ++ [xhi.getD (xhi.length - 1) 0]) ++
        List.zipWith (fun a b => (a + b) / 2) xlo xhi),
    xhi.getD (xhi.length - 1) 0, ?_, hv, ?_, ?_, ?_⟩
  · simp [mergex, hv, hlen]
  · have hperm := List.perm_insertionSort (α := ℚ) (· ≤ ·)
      ((xlo ++ [xhi.getD (xhi.length - 1) 0]) ++
        List.zipWith (fun a b => (a + b) / 2) xlo xhi)
    rw [hperm.length_eq]
    simp only [List.length_append, List.length_zipWith, List.length_cons,
      List.length_nil, ← hlen]
    omega
  · exact List.sorted_insertionSort _ _
  · exact List.perm_insertionSort _ _

/-- C10 witness: the contiguous ordered pair xlo = [1,4], xhi = [4,9], whose
merged array with midpoints is [1, 5/2, 4, 13/2, 9]. -/
theorem mergex_midpoints_spec_witness :
    ∃ l v, mergex [1, 4] [4, 9] true = some l ∧
      ([4, 9] : List ℚ).getLast? = some v ∧
      l.length = 2 * ([1, 4] : List ℚ).length + 1 ∧ l.Sorted (· ≤ ·) ∧
      l.Perm ((([1, 4] : List ℚ) ++ [v]) ++
        List.zipWith (fun a b => (a + b) / 2) [1, 4] [4, 9]) :=
  mergex_midpoints_spec [1, 4] [4, 9] rfl (by decide)
    (by intro n hn
        simp only [List.length_cons, List.length_nil] at hn
        have h0 : n = 0 := by omega
        subst h0
        decide)
    (by intro n hn
        simp only [List.length_cons, List.length_nil] at hn
        have h01 : n = 0 ∨ n = 1 := by omega
        rcases h01 with h | h <;> subst h <;> decide)

/-- C6: of the three parameters of `ElectronIC`, exactly the first and third
are exponentiated as log10-scaled values — the model records
`We = 10**pars[0] erg` and `e_cutoff = 10**pars[2] TeV` — while the spectral
index `pars[1]` is used directly; the distribution is normalized by total
energy content via `set_We(We, Eemin=1*u.TeV)`
(CrabNebula_IC_We.py lines 19-26). -/
theorem ElectronIC_param_usage (pow10 : ℚ → ℚ) (pars : List ℚ)
    (h : pars.length = 3) :
    (buildICModel pow10 pars).pdist.alpha = pars.getD 1 0 ∧
    (buildICModel pow10 pars).weSetting =
      some (⟨pow10 (pars.getD 0 0), "erg"⟩, ⟨1, "TeV"⟩) ∧
    (buildICModel pow10 pars).pdist.e_cutoff = ⟨pow10 (pars.getD 2 0), "TeV"⟩ ∧
    (buildICModel pow10 pars).pdist.amplitude = ⟨1, "1/eV"⟩ ∧
    (buildICModel pow10 pars).pdist.e_0 = ⟨10, "TeV"⟩ :=
  ⟨rfl, rfl, rfl, rfl, rfl⟩

/-- C6 witness: the example's initial parameter vector
`p0 = (40, 3.0, log10(30))`, with the identity standing in for `10**x`. -/
theorem ElectronIC_param_usage_witness :
    (buildICModel id [40, 3, 2]).pdist.alpha = ([40, 3, 2] : List ℚ).getD 1 0 ∧
    (buildICModel id [40, 3, 2]).weSetting =
      some (⟨id (([40, 3, 2] : List ℚ).getD 0 0), "erg"⟩, ⟨1, "TeV"⟩) ∧
    (buildICModel id [40, 3, 2]).pdist.e_cutoff =
      ⟨id (([40, 3, 2] : List ℚ).getD 2 0), "TeV"⟩ ∧
    (buildICModel id [40, 3, 2]).pdist.amplitude = ⟨1, "1/eV"⟩ ∧
    (buildICModel id [40, 3, 2]).pdist.e_0 = ⟨10, "TeV"⟩ :=
  ElectronIC_param_usage id [40, 3, 2] rfl

/-- C7: whenever `ElectronIC` succeeds, its first component is the flux from
the IC model at the observed energies converted to the unit of the data
flux column, and its second component is the auxiliary pair of 100 electron
energies `10**x eV` for x evenly spaced from 11 to 15 inclusive
(np.logspace(11,15,100), so the k-th exponent is 11 + 4k/99) together with
the particle distribution evaluated at those energies
(CrabNebula_IC_We.py lines 28-39). -/
theorem ElectronIC_output (lib : NaimaLib) (pars : List ℚ) (data : DataTable)
    (model ee : List Quantity) (nel : List ℚ)
    (h : ElectronIC lib pars data = Except.ok (model, (ee, nel))) :
    (∃ raw, lib.icFlux (buildICModel lib.pow10 pars) ⟨2, "kpc"⟩ data.energy =
        Except.ok raw ∧
      lib.toUnit raw data.fluxUnit = Except.ok model) ∧
    ee.length = 100 ∧
    (∀ k : ℕ, k < 100 →
      ee.getD k ⟨0, ""⟩ = ⟨lib.pow10 (11 + (15 - 11) * k / 99), "eV"⟩) ∧
    lib.ecplEvalArr (buildICModel lib.pow10 pars).pdist ee = Except.ok nel := by
  unfold ElectronIC at h
  split at h
  · exact Except.noConfusion h
  · rename_i fluxRaw hf
    split at h
    · exact Except.noConfusion h
    · rename_i model2 ht
      split at h
      · exact Except.noConfusion h
      · rename_i nelec he
        simp only [Except.ok.injEq, Prod.mk.injEq] at h
        obtain ⟨hm, hee, hn⟩ := h
        refine ⟨⟨fluxRaw, hf, ?_⟩, ?_, ?_, ?_⟩
        · rw [← hm]; exact ht
        · rw [← hee]; exact logspace_map_length lib.pow10
        · intro k hk
          rw [← hee]
          exact getD_logspace_map lib.pow10 k hk
        · rw [← hee, ← hn]; exact he

/-- C7 witness: the example's initial parameters against the concrete
always-succeeding library record. -/
theorem ElectronIC_output_witness :
    (∃ raw, demoLib.icFlux (buildICModel demoLib.pow10 [40, 3, 2]) ⟨2, "kpc"⟩
        demoData.energy = Except.ok raw ∧
      demoLib.toUnit raw demoData.fluxUnit = Except.ok demoData.energy) ∧
    demoEE.length = 100 ∧
    (∀ k : ℕ, k < 100 →
      demoEE.getD k ⟨0, ""⟩ = ⟨demoLib.pow10 (11 + (15 - 11) * k / 99), "eV"⟩) ∧
    demoLib.ecplEvalArr (buildICModel demoLib.pow10 [40, 3, 2]).pdist demoEE =
      Except.ok (demoEE.map Quantity.val) :=
  ElectronIC_output demoLib [40, 3, 2] demoData demoData.energy demoEE
    (demoEE.map Quantity.val) rfl

/-- C8: neither `ElectronIC` nor `InverseCompton.calc` contains any handler:
the first failure (flux evaluation, unit conversion, or distribution
evaluation in `ElectronIC`; the seed-list AttributeError or the flux
evaluation in the reachable branch of `calc`) is returned to the caller
unchanged — no exception is caught, no default is substituted. -/
theorem error_propagation :
    (∀ lib pars data e,
      lib.icFlux (buildICModel lib.pow10 pars) ⟨2, "kpc"⟩ data.energy =
        Except.error e →
      ElectronIC lib pars data = Except.error e) ∧
    (∀ lib pars data raw e,
      lib.icFlux (buildICModel lib.pow10 pars) ⟨2, "kpc"⟩ data.energy =
        Except.ok raw →
      lib.toUnit raw data.fluxUnit = Except.error e →
      ElectronIC lib pars data = Except.error e) ∧
    (∀ lib pars data raw model e,
      lib.icFlux (buildICModel lib.pow10 pars) ⟨2, "kpc"⟩ data.energy =
        Except.ok raw →
      lib.toUnit raw data.fluxUnit = Except.ok model →
      lib.ecplEvalArr (buildICModel lib.pow10 pars).pdist
        ((logspace lib.pow10 11 15 100).map (fun v => (⟨v, "eV"⟩ : Quantity))) =
        Except.error e →
      ElectronIC lib pars data = Except.error e) ∧
    (∀ flux p x e,
      buildSeedSpec p = Except.error e →
      icCalc flux p x none = Except.error e) ∧
    (∀ flux p x seedspec e,
      buildSeedSpec p = Except.ok seedspec →
      flux (buildPDist p) seedspec x = Except.error e →
      icCalc flux p x none = Except.error e) := by
  refine ⟨?_, ?_, ?_, ?_, ?_⟩
  · intro lib pars data e hf
    simp only [ElectronIC, hf]
  · intro lib pars data raw e hf ht
    simp only [ElectronIC, hf, ht]
  · intro lib pars data raw model e hf ht he
    simp only [ElectronIC, hf, ht, he]
  · intro flux p x e hb
    simp only [icCalc, hb]
  · intro flux p x seedspec e hs hf
    simp only [icCalc, hs, hf]

/-- C8 witness: a flux evaluation failing with "boom" surfaces unchanged from
`ElectronIC`. -/
theorem error_propagation_witness :
    ElectronIC demoFailLib [40, 3, 2] demoData = Except.error "boom" :=
  error_propagation.1 demoFailLib [40, 3, 2] demoData "boom" rfl

end Naima
